import Mathlib

/-!
Shallow embedding of the geofence evaluation-and-dispatch engine
(HCL-CDP-TA/geofence): geometry kernel (ray-casting point-in-polygon),
region cache, server-side evaluator with per-key locks, adapter
dispatcher, and the SDK client monitor's server-event reconciliation.
Machine reals are modelled as rationals; timestamps as naturals.
-/

/-- A latitude/longitude pair (degrees), as in the source's
`Array<\x7blat: number; lng: number\x7d>` coordinate entries. -/
structure LatLng where
  lat : ℚ
  lng : ℚ
deriving DecidableEq, Repr

/-- The geometry error signalled (via an error log, not a throw) by
`isPointInPolygon` when the vertex count is not exactly 8. -/
inductive GeometryError where
  | wrongVertexCount
deriving DecidableEq, Repr

/-- One step of the ray-casting loop: does the eastward horizontal ray from
the point cross the edge between vertices `(xi, yi)` and `(xj, yj)`?
Mirrors `yi > pointLat !== yj > pointLat && pointLon < ((xj - xi) * (pointLat - yi)) / (yj - yi) + xi`. -/
def edgeCross (pointLat pointLon xi yi xj yj : ℚ) : Bool :=
  (decide (yi > pointLat) != decide (yj > pointLat)) &&
    decide (pointLon < (xj - xi) * (pointLat - yi) / (yj - yi) + xi)

/-- Default vertex used to express the guarded array accesses
`coordinates[i]` (only ever read at indices `< 8` under the length guard). -/
def defaultVertex : LatLng := ⟨0, 0⟩

/-- The ray-casting loop body of `isPointInPolygon` (src/unnamed/part_005):
`for (let i = 0, j = 7; i < 8; j = i++)` toggling `inside` on each crossing.
`j` is the predecessor index `(i + 7) % 8`. -/
def rayCastLoop (pointLat pointLon : ℚ) (coordinates : List LatLng) : Bool :=
  (List.range 8).foldl
    (fun inside i =>
      let vi := coordinates.getD i defaultVertex
      let vj := coordinates.getD ((i + 7) % 8) defaultVertex
      if edgeCross pointLat pointLon vi.lng vi.lat vj.lng vj.lat then !inside else inside)
    false

/-- `isPointInPolygon` from src/unnamed/part_005, with its `console.error`
channel made explicit: wrong vertex count yields `false` together with a
`GeometryError`; otherwise the ray-casting result with no error. -/
def isPointInPolygonRun (pointLat pointLon : ℚ) (coordinates : List LatLng) :
    Bool × Option GeometryError :=
  if coordinates.length ≠ 8 then (false, some GeometryError.wrongVertexCount)
  else (rayCastLoop pointLat pointLon coordinates, none)

/-- The boolean returned by `isPointInPolygon`. -/
def isPointInPolygon (pointLat pointLon : ℚ) (coordinates : List LatLng) : Bool :=
  (isPointInPolygonRun pointLat pointLon coordinates).1

/-- An octagon (unit square with edge midpoints) used in concrete scenarios. -/
def octagonAt (latOff lngOff : ℚ) : List LatLng :=
  [⟨latOff + 0, lngOff + 0⟩, ⟨latOff + 0, lngOff + 1⟩, ⟨latOff + 0, lngOff + 2⟩,
   ⟨latOff + 1, lngOff + 2⟩, ⟨latOff + 2, lngOff + 2⟩, ⟨latOff + 2, lngOff + 1⟩,
   ⟨latOff + 2, lngOff + 0⟩, ⟨latOff + 1, lngOff + 0⟩]

example : isPointInPolygon 1 1 (octagonAt 0 0) = true := by
  norm_num [isPointInPolygon, isPointInPolygonRun, rayCastLoop, octagonAt, edgeCross,
    List.range_succ, List.getD]

example : isPointInPolygon 1 1 (octagonAt 100 100) = false := by
  norm_num [isPointInPolygon, isPointInPolygonRun, rayCastLoop, octagonAt, edgeCross,
    List.range_succ, List.getD]

example : isPointInPolygon 1 1 [⟨0, 0⟩, ⟨0, 2⟩, ⟨2, 2⟩] = false := by rfl

/-! ## Region store, cache, and user state (geofence-evaluator.ts) -/

/-- A row of the external region store (the Prisma `geofence` table). -/
structure GeofenceRow where
  id : String
  name : String
  coordinates : List LatLng
  enabled : Bool
deriving DecidableEq, Repr

/-- The projection selected by the evaluator's store query
(`select: id, name, coordinates`). -/
structure GeofenceRec where
  id : String
  name : String
  coordinates : List LatLng
deriving DecidableEq, Repr

/-- Drop the `enabled` column, as the `select` clause does. -/
def GeofenceRow.toRec (r : GeofenceRow) : GeofenceRec :=
  ⟨r.id, r.name, r.coordinates⟩

/-- `prisma.geofence.findMany(\x7b where: \x7b enabled: true \x7d, select: ... \x7d)`:
the only filter is the `enabled` flag. -/
def fetchEnabledGeofences (table : List GeofenceRow) : List GeofenceRec :=
  (table.filter (fun r => r.enabled)).map GeofenceRow.toRec

/-- The single module-level `geofenceCache` entry. -/
structure GeofenceCache where
  data : List GeofenceRec
  timestamp : ℕ
deriving DecidableEq, Repr

def CACHE_TTL_MS : ℕ := 5 * 60 * 1000

/-- The freshness test `geofenceCache && now - geofenceCache.timestamp < CACHE_TTL_MS`. -/
def cacheIsFresh (cache : Option GeofenceCache) (now : ℕ) : Bool :=
  match cache with
  | none => false
  | some c => decide (now - c.timestamp < CACHE_TTL_MS)

/-- The fetch-and-populate arm of `getCachedGeofences`: query the store
(which may fail), then overwrite the cache entry. The boolean records that
a store fetch was issued. -/
def fetchAndPopulate (now : ℕ) (store : Except String (List GeofenceRow)) :
    Except String (List GeofenceRec × Option GeofenceCache × Bool) :=
  match store with
  | .error e => .error e
  | .ok rows => .ok (fetchEnabledGeofences rows, some ⟨fetchEnabledGeofences rows, now⟩, true)

/-- `getCachedGeofences`: return the cached list when fresh, otherwise fetch
from the store and repopulate. Returns (regions, cache afterwards, fetched?). -/
def getCachedGeofences (cache : Option GeofenceCache) (now : ℕ)
    (store : Except String (List GeofenceRow)) :
    Except String (List GeofenceRec × Option GeofenceCache × Bool) :=
  match cache with
  | some c =>
    if now - c.timestamp < CACHE_TTL_MS then .ok (c.data, some c, false)
    else fetchAndPopulate now store
  | none => fetchAndPopulate now store

/-- `invalidateGeofenceCache`: `geofenceCache = null`. There is no namespace
parameter; the one global entry is dropped. -/
def invalidateGeofenceCache (cache : Option GeofenceCache) : Option GeofenceCache :=
  none

/-- A row of the Prisma `userGeofenceState` table, keyed by `(appId, userId)`. -/
structure UserGeofenceState where
  appId : String
  userId : String
  activeGeofenceIds : List String
  lastLatitude : ℚ
  lastLongitude : ℚ
  lastReportedAt : ℕ
deriving DecidableEq, Repr

/-- `prisma.userGeofenceState.findUnique(where: appId_userId)`. -/
def findUserState (db : List UserGeofenceState) (appId userId : String) :
    Option UserGeofenceState :=
  db.find? (fun s => s.appId == appId && s.userId == userId)

/-- `prisma.userGeofenceState.update(where: appId_userId, data: ...)`. -/
def updateUserState (db : List UserGeofenceState) (appId userId : String)
    (activeIds : List String) (lat lng : ℚ) (ts : ℕ) : List UserGeofenceState :=
  db.map (fun s =>
    if s.appId == appId && s.userId == userId then
      { s with activeGeofenceIds := activeIds, lastLatitude := lat,
               lastLongitude := lng, lastReportedAt := ts }
    else s)

/-! ## Adapter registry and dispatcher (adapters/index.ts) -/

inductive EventType where
  | enter
  | exit
deriving DecidableEq, Repr

/-- A registered sink: `name` and `enabled` (fixed at construction). -/
structure EventAdapter where
  name : String
  enabled : Bool
deriving DecidableEq, Repr

structure AdapterConfig where
  adapters : List EventAdapter
deriving DecidableEq, Repr

/-- Behaviour of one sink handler invocation: how long it takes to settle
and whether it rejects (with an error message). -/
structure SinkBehavior where
  durationMs : ℕ
  rejects : Option String
deriving DecidableEq, Repr

/-- The fixed per-sink timeout: `setTimeout(..., 5000)`. -/
def ADAPTER_TIMEOUT_MS : ℕ := 5000

/-- `Promise.race([handler.call(adapter, event), timeoutPromise])`: the
handler settles first only if it beats the 5s timer; otherwise the race
rejects with "Adapter timeout". -/
def racedFailure (b : SinkBehavior) : Option String :=
  if b.durationMs ≥ ADAPTER_TIMEOUT_MS then some "Adapter timeout" else b.rejects

/-- `dispatchEvent` (fire-and-forget variant used by the evaluator): every
enabled adapter's handler is invoked; each race failure is caught and
logged per adapter. Returns, per invoked adapter, its name and the log
entry its `.catch` produced (`none` when the handler succeeded in time). -/
def dispatchEvent (eventType : EventType) (config : AdapterConfig)
    (beh : String → EventType → SinkBehavior) : List (String × Option String) :=
  (config.adapters.filter (fun a => a.enabled)).map (fun a =>
    (a.name, (racedFailure (beh a.name eventType)).map
      (fun msg => "[AdapterDispatcher] " ++ a.name ++ " adapter failed: " ++ msg)))

/-! ## The evaluator (GeofenceEvaluator) -/

/-- `PositionInput` of geofence-evaluator.ts. -/
structure PositionInput where
  appId : String
  userId : String
  latitude : ℚ
  longitude : ℚ
  accuracy : ℚ
  timestamp : ℕ
  speed : Option ℚ
  heading : Option ℚ
deriving DecidableEq, Repr

/-- One entry of the `events` array in `EvaluationResult`. -/
structure EvalEvent where
  type : EventType
  geofence : GeofenceRec
  timestamp : ℕ
deriving DecidableEq, Repr

/-- Stand-in for the unreachable `geofences.find(...)!` miss. -/
def defaultGeofence : GeofenceRec := ⟨"", "", []⟩

/-- JS `Set.add`: append only when absent (insertion order preserved). -/
def setInsert (s : List String) (x : String) : List String :=
  if x ∈ s then s else s ++ [x]

/-- `new Set(list)`: de-duplicate keeping first occurrences, in order. -/
def setFromList (l : List String) : List String :=
  l.foldl setInsert []

/-- Step 3 of `performEvaluation`: the ids of the geofences whose polygon
contains the position, in region-list order (a JS `Set` of ids). -/
def computeCurrentGeofenceIds (geofences : List GeofenceRec) (lat lng : ℚ) :
    List String :=
  geofences.foldl
    (fun acc g => if isPointInPolygon lat lng g.coordinates then setInsert acc g.id else acc)
    []

/-- One of the two transition loops of step 4: for each id of `fromIds` not
in `avoidIds`, look up its geofence, push an event of kind `t` onto the
shared `events` array, and record the `dispatchEvent` call. The lookup
mirrors the source's non-null assertion `geofences.find(g => g.id === gid)!`:
`getD defaultGeofence` stands for the `!`. A miss — reachable only in the
exit loop, when a previously-active id no longer appears in the fetched
list — makes the source throw a TypeError before the state update, so
theorems whose conclusions pass through this lookup carry the hypothesis
that every previously-active id still resolves in the fetched list; on
those inputs the lookup never misses and this total model agrees with the
source. -/
def transitionLoop (t : EventType) (geofences : List GeofenceRec)
    (fromIds avoidIds : List String) (ts : ℕ)
    (acc : List EvalEvent × List (EventType × String)) :
    List EvalEvent × List (EventType × String) :=
  fromIds.foldl
    (fun st gid =>
      if gid ∈ avoidIds then st
      else
        let g := (geofences.find? (fun gf => gf.id == gid)).getD defaultGeofence
        (st.1 ++ [⟨t, g, ts⟩], st.2 ++ [(t, gid)]))
    acc

/-- Step 2 of `performEvaluation`: `findUnique`, creating the state row
(`activeGeofenceIds: []`, last position = the reported one) on first sight. -/
def ensureUserState (db : List UserGeofenceState) (input : PositionInput) :
    List UserGeofenceState :=
  match findUserState db input.appId input.userId with
  | some _ => db
  | none => db ++ [⟨input.appId, input.userId, [], input.latitude, input.longitude, input.timestamp⟩]

/-- The `activeGeofenceIds` the evaluation diffs against: the stored state
for the key, or the empty list the freshly created state holds. -/
def prevActiveOf (db : List UserGeofenceState) (input : PositionInput) : List String :=
  match findUserState db input.appId input.userId with
  | some s => s.activeGeofenceIds
  | none => []

/-- Everything `performEvaluation` produces or mutates: the returned result
(or the propagated store error), the user-state table, the cache, whether a
store fetch was issued, the `dispatchEvent` calls made, and the per-adapter
sink logs those dispatches produced. -/
structure EvalOutcome where
  result : Except String (List EvalEvent)
  userStates : List UserGeofenceState
  cache : Option GeofenceCache
  fetched : Bool
  dispatched : List (EventType × String)
  sinkLogs : List (String × Option String)
deriving Repr

/-- `performEvaluation`: fetch regions through the cache (a failure aborts
before any state mutation), lazily create the key's state, compute current
membership, emit ENTER events then EXIT events (dispatching each), and
persist the new state. -/
def performEvaluation (config : AdapterConfig) (beh : String → EventType → SinkBehavior)
    (store : Except String (List GeofenceRow)) (now : ℕ)
    (cache : Option GeofenceCache) (db : List UserGeofenceState)
    (input : PositionInput) : EvalOutcome :=
  match getCachedGeofences cache now store with
  | .error e => ⟨.error e, db, cache, false, [], []⟩
  | .ok (geofences, cache2, fetched) =>
    let db1 := ensureUserState db input
    let currentIds := computeCurrentGeofenceIds geofences input.latitude input.longitude
    let prevIds := setFromList (prevActiveOf db input)
    let afterEnter := transitionLoop .enter geofences currentIds prevIds input.timestamp ([], [])
    let afterExit := transitionLoop .exit geofences prevIds currentIds input.timestamp afterEnter
    let db2 := updateUserState db1 input.appId input.userId currentIds
      input.latitude input.longitude input.timestamp
    ⟨.ok afterExit.1, db2, cache2, fetched, afterExit.2,
      (afterExit.2.map (fun d => dispatchEvent d.1 config beh)).flatten⟩

/-- The module-level mutable state `evaluatePosition` touches: the cache,
the user-state table, the `userLocks` keys currently held, and the clock. -/
structure EvaluatorWorld where
  cache : Option GeofenceCache
  userStates : List UserGeofenceState
  locks : List String
  now : ℕ
deriving Repr

structure EvaluateOutcome where
  result : Except String (List EvalEvent)
  world : EvaluatorWorld
  dispatched : List (EventType × String)
  sinkLogs : List (String × Option String)
deriving Repr

/-- The `userLocks` key for an input. -/
def lockKeyOf (input : PositionInput) : String :=
  input.appId ++ ":" ++ input.userId

/-- `evaluatePosition`: when the key is already locked, the code awaits the
in-flight promise — whose eventual value is `pendingEvents` — and then
returns an empty `events` array, discarding that value. Otherwise it sets
the lock, runs `performEvaluation`, and deletes the lock in `finally`
(whether the evaluation succeeded or threw). -/
def evaluatePosition (config : AdapterConfig) (beh : String → EventType → SinkBehavior)
    (store : Except String (List GeofenceRow)) (w : EvaluatorWorld)
    (input : PositionInput) (pendingEvents : List EvalEvent) : EvaluateOutcome :=
  if lockKeyOf input ∈ w.locks then
    ⟨.ok [], w, [], []⟩
  else
    let o := performEvaluation config beh store w.now w.cache w.userStates input
    ⟨o.result,
      ⟨o.cache, o.userStates, (lockKeyOf input :: w.locks).erase (lockKeyOf input), w.now⟩,
      o.dispatched, o.sinkLogs⟩

/-! ## Client monitor: reconciliation of server events (sdk/src/types/index.ts) -/

/-- One event of the position-report response processed by
`handleServerEvaluation`. -/
structure ServerEvent where
  type : EventType
  geofenceId : String
deriving DecidableEq, Repr

/-- One iteration of `handleServerEvaluation`'s event loop over the local
`currentGeofences` set (first component) and the emissions to the
application (second component): an `enter` is emitted only when the id is
not locally active (and the id is added); an `exit` only when it is (and
the id is removed); anything else is skipped as a duplicate. -/
def reconcileStep (st : List String × List (EventType × String)) (e : ServerEvent) :
    List String × List (EventType × String) :=
  match e.type with
  | .enter =>
    if e.geofenceId ∈ st.1 then st
    else (st.1 ++ [e.geofenceId], st.2 ++ [(EventType.enter, e.geofenceId)])
  | .exit =>
    if e.geofenceId ∈ st.1 then (st.1.erase e.geofenceId, st.2 ++ [(EventType.exit, e.geofenceId)])
    else st

/-- The reconciliation loop over a stream of server-returned events (the
concatenation of the event lists of successive responses). -/
def reconcileEvents (st : List String × List (EventType × String))
    (evs : List ServerEvent) : List String × List (EventType × String) :=
  evs.foldl reconcileStep st

/-- The kinds of the events emitted to the application for one geofence id,
in emission order. -/
def kindsFor (out : List (EventType × String)) (gid : String) : List EventType :=
  (out.filter (fun p => p.2 == gid)).map Prod.fst

/-- The strict enter/exit alternation of length `n`: enter, exit, enter, ... -/
def altKinds (n : ℕ) : List EventType :=
  (List.range n).map (fun i => if i % 2 = 0 then EventType.enter else EventType.exit)

/-! ## Interleaving model of concurrent `getCachedGeofences` calls -/

/-- Program counter of one in-flight `getCachedGeofences` call: before the
synchronous freshness check, suspended on the awaited store query, or done. -/
inductive CacheCallPC where
  | start
  | awaitingStore
  | done (regions : List GeofenceRec)
deriving DecidableEq, Repr

/-- Shared state of several concurrent `getCachedGeofences` calls: the one
module-level cache entry, the number of store fetches issued so far, and
each call's program counter. -/
structure CacheRace where
  cache : Option GeofenceCache
  fetchCount : ℕ
  threads : List CacheCallPC
deriving Repr

/-- Advance call `i` by one atomic step (the synchronous code between two
suspension points). At `start`, the freshness check runs: a hit completes
at once with the cached data, a miss issues the store query — counted —
and suspends on the await. At `awaitingStore`, the query result arrives:
the cache entry is overwritten and the call completes. -/
def cacheRaceStep (table : List GeofenceRow) (now : ℕ) (s : CacheRace) (i : ℕ) :
    CacheRace :=
  match s.threads.getD i (CacheCallPC.done []) with
  | .start =>
    match s.cache with
    | some c =>
      if now - c.timestamp < CACHE_TTL_MS then
        { s with threads := s.threads.set i (.done c.data) }
      else
        { s with fetchCount := s.fetchCount + 1, threads := s.threads.set i .awaitingStore }
    | none =>
      { s with fetchCount := s.fetchCount + 1, threads := s.threads.set i .awaitingStore }
  | .awaitingStore =>
    { s with cache := some ⟨fetchEnabledGeofences table, now⟩,
             threads := s.threads.set i (.done (fetchEnabledGeofences table)) }
  | .done _ => s

/-- Run a schedule: at each step the named call advances by one atomic step. -/
def cacheRaceRun (table : List GeofenceRow) (now : ℕ) (s : CacheRace)
    (sched : List ℕ) : CacheRace :=
  sched.foldl (cacheRaceStep table now) s

/-- Two `getCachedGeofences` calls racing on an empty (missed) cache. -/
def twoMissedCalls : CacheRace :=
  ⟨none, 0, [CacheCallPC.start, CacheCallPC.start]⟩

/-! ## C7 / C8: properties of the point-in-polygon kernel -/

theorem toggle_eq_xor (c a : Bool) : (if c = true then !a else a) = xor a c := by
  cases c <;> cases a <;> rfl

theorem xor_left_comm3 (a b c : Bool) : xor a (xor b c) = xor b (xor a c) := by
  cases a <;> cases b <;> cases c <;> rfl

theorem list_length_eq_eight {α : Type} {l : List α} (h : l.length = 8) :
    ∃ a b c d e f g i, l = [a, b, c, d, e, f, g, i] := by
  rcases l with _ | ⟨a, _ | ⟨b, _ | ⟨c, _ | ⟨d, _ | ⟨e, _ | ⟨f, _ | ⟨g, _ | ⟨i, _ | ⟨j, t⟩⟩⟩⟩⟩⟩⟩⟩⟩ <;>
      simp only [List.length_cons, List.length_nil] at h <;> first
    | omega
    | exact ⟨a, b, c, d, e, f, g, i, rfl⟩

/-- Rotating the vertex list by one position permutes the edge set and so
leaves the crossing parity unchanged. -/
theorem rayCastLoop_rotate_one_explicit (p q : ℚ) (v0 v1 v2 v3 v4 v5 v6 v7 : LatLng) :
    rayCastLoop p q [v1, v2, v3, v4, v5, v6, v7, v0]
      = rayCastLoop p q [v0, v1, v2, v3, v4, v5, v6, v7] := by
  simp only [rayCastLoop, List.range_succ, List.range_zero, List.nil_append,
    List.cons_append, List.foldl_cons, List.foldl_nil, List.foldl_append, List.getD]
  norm_num [toggle_eq_xor]
  simp [Bool.xor_assoc, Bool.xor_comm, xor_left_comm3]

theorem rayCastLoop_rotate_one (p q : ℚ) (l : List LatLng) (h : l.length = 8) :
    rayCastLoop p q (l.rotate 1) = rayCastLoop p q l := by
  obtain ⟨v0, v1, v2, v3, v4, v5, v6, v7, rfl⟩ := list_length_eq_eight h
  have hrot : ([v0, v1, v2, v3, v4, v5, v6, v7] : List LatLng).rotate 1
      = [v1, v2, v3, v4, v5, v6, v7, v0] := by rfl
  rw [hrot]
  exact rayCastLoop_rotate_one_explicit p q v0 v1 v2 v3 v4 v5 v6 v7

theorem isPointInPolygon_of_length (p q : ℚ) (coords : List LatLng)
    (h : coords.length = 8) : isPointInPolygon p q coords = rayCastLoop p q coords := by
  simp [isPointInPolygon, isPointInPolygonRun, h]

/-- C7: for a vertex list of the fixed length 8, `isPointInPolygon` is
invariant under rotating the vertex list by any number of positions. -/
theorem isPointInPolygon_rotation_invariant (pointLat pointLon : ℚ) (vs : List LatLng)
    (k : ℕ) (h : vs.length = 8) :
    isPointInPolygon pointLat pointLon (vs.rotate k)
      = isPointInPolygon pointLat pointLon vs := by
  induction k with
  | zero => rw [List.rotate_zero]
  | succ n ih =>
    have hrot : vs.rotate (n + 1) = (vs.rotate n).rotate 1 := by
      rw [List.rotate_rotate]
    have hlen : (vs.rotate n).length = 8 := by rw [List.length_rotate]; exact h
    have hlen1 : ((vs.rotate n).rotate 1).length = 8 := by
      rw [List.length_rotate]; exact hlen
    rw [hrot, isPointInPolygon_of_length pointLat pointLon _ hlen1,
      rayCastLoop_rotate_one pointLat pointLon _ hlen,
      ← isPointInPolygon_of_length pointLat pointLon _ hlen]
    exact ih

/-- C7 witness: a concrete octagon, rotated by 3, classifies the point
(1, 1) exactly as the unrotated list does. -/
theorem isPointInPolygon_rotation_invariant_witness :
    (octagonAt 0 0).length = 8
      ∧ isPointInPolygon 1 1 ((octagonAt 0 0).rotate 3)
          = isPointInPolygon 1 1 (octagonAt 0 0) :=
  ⟨by rfl, isPointInPolygon_rotation_invariant 1 1 (octagonAt 0 0) 3 (by rfl)⟩

/-- C8: on any vertex list whose length is not 8, `isPointInPolygon`
returns `false` and signals the geometry error, without throwing. -/
theorem isPointInPolygon_wrong_count (pointLat pointLon : ℚ) (coords : List LatLng)
    (h : coords.length ≠ 8) :
    isPointInPolygonRun pointLat pointLon coords
      = (false, some GeometryError.wrongVertexCount) := by
  simp [isPointInPolygonRun, h]

/-- C8 witness: a 3-vertex list is rejected with the geometry error. -/
theorem isPointInPolygon_wrong_count_witness :
    (([⟨0, 0⟩, ⟨0, 2⟩, ⟨2, 2⟩] : List LatLng).length ≠ 8)
      ∧ isPointInPolygonRun 1 1 [⟨0, 0⟩, ⟨0, 2⟩, ⟨2, 2⟩]
          = (false, some GeometryError.wrongVertexCount) :=
  ⟨by decide, isPointInPolygon_wrong_count 1 1 _ (by decide)⟩

/-! ## C1: behaviour of `evaluatePosition` under lock contention -/

/-- C1 (observed behaviour): when the key is already locked, the second
caller gets `\x7b events: [] \x7d` even though the in-flight evaluation's
result is a non-empty event list — that result is awaited and discarded,
not returned. -/
theorem evaluatePosition_contended_returns_empty :
    (evaluatePosition ⟨[]⟩ (fun _ _ => ⟨0, none⟩) (Except.ok [])
        ⟨none, [], ["app1:u1"], 0⟩ ⟨"app1", "u1", 1, 1, 5, 0, none, none⟩
        [⟨EventType.enter, ⟨"B", "B", []⟩, 0⟩]).result = .ok []
    ∧ (Except.ok [⟨EventType.enter, ⟨"B", "B", []⟩, 0⟩] : Except String (List EvalEvent))
        ≠ .ok [] := by
  constructor
  · simp [evaluatePosition, lockKeyOf]
  · simp

/-! ## C9: interleaved cache misses are not synchronized -/

/-- C9 counterexample: with the cache empty, two interleaved
`getCachedGeofences` calls both observe the miss and both issue a store
fetch — the single miss triggers two fetches, not at most one. -/
theorem cacheRace_two_fetches_for_one_miss :
    (cacheRaceRun [] 0 twoMissedCalls [0, 1, 0, 1]).fetchCount = 2
    ∧ ¬ ((cacheRaceRun [] 0 twoMissedCalls [0, 1, 0, 1]).fetchCount ≤ 1) := by
  constructor
  · rfl
  · decide

/-- C9 (amended): the fetch-and-populate step is unsynchronized — each call
that observes the miss issues its own fetch (two when the two calls
interleave), while a call whose freshness check runs only after another
call has repopulated the cache hits the cache, so the sequential schedule
issues a single fetch. -/
theorem cacheRace_fetch_per_interleaved_miss :
    (cacheRaceRun [] 0 twoMissedCalls [0, 1, 0, 1]).fetchCount = 2
    ∧ (cacheRaceRun [] 0 twoMissedCalls [0, 0, 1]).fetchCount = 1 := by
  constructor <;> rfl

/-! ## C5: reconciliation of server events never double-emits -/
theorem kindsFor_append (out : List (EventType × String)) (t : EventType) (gid2 gid : String) :
    kindsFor (out ++ [(t, gid2)]) gid
      = kindsFor out gid ++ (if gid2 = gid then [t] else []) := by
  by_cases h : gid2 = gid <;> simp [kindsFor, List.filter_append, h]

theorem altKinds_succ (n : ℕ) :
    altKinds (n + 1) = altKinds n ++ [if n % 2 = 0 then EventType.enter else EventType.exit] := by
  simp [altKinds, List.range_succ]

theorem altKinds_length (n : ℕ) : (altKinds n).length = n := by simp [altKinds]

theorem altKinds_snoc_enter (n : ℕ) (h : n % 2 = 0) :
    altKinds n ++ [EventType.enter] = altKinds (n + 1) := by
  rw [altKinds_succ, if_pos h]

theorem altKinds_snoc_exit (n : ℕ) (h : n % 2 = 1) :
    altKinds n ++ [EventType.exit] = altKinds (n + 1) := by
  rw [altKinds_succ, if_neg (by omega)]

theorem altKinds_chain (n : ℕ) : List.Chain' (fun a b => a ≠ b) (altKinds n) := by
  rw [List.chain'_iff_get]
  intro i h
  have hg : ∀ (j : ℕ) (hj : j < (altKinds n).length),
      (altKinds n).get ⟨j, hj⟩ = if j % 2 = 0 then EventType.enter else EventType.exit := by
    intro j hj
    simp [altKinds]
  rw [hg, hg]
  rcases Nat.mod_two_eq_zero_or_one i with he | ho
  · have h1 : (i + 1) % 2 = 1 := by omega
    simp [he, h1]
  · have h0 : (i + 1) % 2 = 0 := by omega
    simp [ho, h0]

theorem altKinds_head (n : ℕ) : (altKinds n).head? ≠ some EventType.exit := by
  cases n with
  | zero => simp [altKinds]
  | succ m =>
    rw [altKinds, List.range_succ_eq_map]
    simp

theorem reconcile_invariant (evs : List ServerEvent) (s : List String)
    (out : List (EventType × String)) (hs : s.Nodup)
    (hinv : ∀ gid, kindsFor out gid = altKinds (kindsFor out gid).length
      ∧ (gid ∈ s ↔ (kindsFor out gid).length % 2 = 1)) :
    (reconcileEvents (s, out) evs).1.Nodup
    ∧ ∀ gid, kindsFor (reconcileEvents (s, out) evs).2 gid
        = altKinds (kindsFor (reconcileEvents (s, out) evs).2 gid).length
      ∧ (gid ∈ (reconcileEvents (s, out) evs).1
          ↔ (kindsFor (reconcileEvents (s, out) evs).2 gid).length % 2 = 1) := by
  induction evs generalizing s out with
  | nil => exact ⟨hs, hinv⟩
  | cons e t ih =>
    have hfold : reconcileEvents (s, out) (e :: t)
        = reconcileEvents (reconcileStep (s, out) e) t := rfl
    rcases e with ⟨ty, gid2⟩
    cases ty with
    | enter =>
      by_cases hmem : gid2 ∈ s
      · rw [hfold]
        simpa [reconcileStep, hmem] using ih s out hs hinv
      · rw [hfold]
        have hstep : reconcileStep (s, out) ⟨EventType.enter, gid2⟩
            = (s ++ [gid2], out ++ [(EventType.enter, gid2)]) := by
          simp [reconcileStep, hmem]
        rw [hstep]
        apply ih
        · simp [List.nodup_append, hs, hmem]
        · intro gid
          obtain ⟨hk, hp⟩ := hinv gid
          by_cases hg : gid2 = gid
          · subst hg
            have heven : (kindsFor out gid2).length % 2 = 0 := by
              rcases Nat.mod_two_eq_zero_or_one (kindsFor out gid2).length with h0 | h1
              · exact h0
              · exact absurd (hp.mpr h1) hmem
            have hka : kindsFor (out ++ [(EventType.enter, gid2)]) gid2
                = kindsFor out gid2 ++ [EventType.enter] := by
              rw [kindsFor_append, if_pos rfl]
            have hlen : (kindsFor (out ++ [(EventType.enter, gid2)]) gid2).length
                = (kindsFor out gid2).length + 1 := by
              rw [hka, List.length_append, List.length_cons, List.length_nil]
            constructor
            · rw [hlen, hka, hk, altKinds_snoc_enter _ heven, altKinds_length]
            · rw [hlen]
              have hone : ((kindsFor out gid2).length + 1) % 2 = 1 := by omega
              simp [hone]
          · have hka : kindsFor (out ++ [(EventType.enter, gid2)]) gid
                = kindsFor out gid := by
              rw [kindsFor_append, if_neg hg, List.append_nil]
            rw [hka]
            refine ⟨hk, ?_⟩
            rw [← hp]
            simp only [List.mem_append, List.mem_singleton]
            constructor
            · rintro (h | h)
              · exact h
              · exact absurd h.symm hg
            · exact Or.inl
    | exit =>
      by_cases hmem : gid2 ∈ s
      · rw [hfold]
        have hstep : reconcileStep (s, out) ⟨EventType.exit, gid2⟩
            = (s.erase gid2, out ++ [(EventType.exit, gid2)]) := by
          simp [reconcileStep, hmem]
        rw [hstep]
        apply ih
        · exact hs.erase gid2
        · intro gid
          obtain ⟨hk, hp⟩ := hinv gid
          by_cases hg : gid2 = gid
          · subst hg
            have hodd : (kindsFor out gid2).length % 2 = 1 := hp.mp hmem
            have hka : kindsFor (out ++ [(EventType.exit, gid2)]) gid2
                = kindsFor out gid2 ++ [EventType.exit] := by
              rw [kindsFor_append, if_pos rfl]
            have hlen : (kindsFor (out ++ [(EventType.exit, gid2)]) gid2).length
                = (kindsFor out gid2).length + 1 := by
              rw [hka, List.length_append, List.length_cons, List.length_nil]
            constructor
            · rw [hlen, hka, hk, altKinds_snoc_exit _ hodd, altKinds_length]
            · rw [hlen]
              have hzero : ¬ (((kindsFor out gid2).length + 1) % 2 = 1) := by omega
              rw [hs.mem_erase_iff]
              simp [hzero]
          · have hka : kindsFor (out ++ [(EventType.exit, gid2)]) gid
                = kindsFor out gid := by
              rw [kindsFor_append, if_neg hg, List.append_nil]
            rw [hka]
            refine ⟨hk, ?_⟩
            rw [← hp]
            rw [hs.mem_erase_iff]
            constructor
            · rintro ⟨_, h⟩
              exact h
            · intro h
              exact ⟨fun hc => hg hc.symm, h⟩
      · rw [hfold]
        simpa [reconcileStep, hmem] using ih s out hs hinv

/-- C5: starting from an empty local `currentGeofences` set, however the
server-returned event stream looks, the emissions the application receives
for any geofence id strictly alternate starting with `enter` (the kind
sequence is an `altKinds` prefix), so no two consecutive same-kind events
are ever emitted for one id; moreover the id is locally active exactly
when an odd number of events for it has been emitted. -/
theorem handleServerEvaluation_no_duplicate_emissions (evs : List ServerEvent) (gid : String) :
    kindsFor (reconcileEvents ([], []) evs).2 gid
      = altKinds (kindsFor (reconcileEvents ([], []) evs).2 gid).length
    ∧ List.Chain' (fun a b => a ≠ b) (kindsFor (reconcileEvents ([], []) evs).2 gid)
    ∧ (kindsFor (reconcileEvents ([], []) evs).2 gid).head? ≠ some EventType.exit
    ∧ ((gid ∈ (reconcileEvents ([], []) evs).1)
        ↔ (kindsFor (reconcileEvents ([], []) evs).2 gid).length % 2 = 1) := by
  have base := reconcile_invariant evs [] [] List.nodup_nil (by
    intro gid0
    constructor
    · simp [kindsFor, altKinds]
    · simp [kindsFor])
  obtain ⟨-, hall⟩ := base
  obtain ⟨hk, hp⟩ := hall gid
  refine ⟨hk, ?_, ?_, hp⟩
  · rw [hk]
    exact altKinds_chain _
  · rw [hk]
    exact altKinds_head _

example :
    (reconcileEvents ([], [])
      [⟨EventType.enter, "g"⟩, ⟨EventType.enter, "g"⟩, ⟨EventType.exit, "g"⟩,
       ⟨EventType.exit, "g"⟩]).2 = [(EventType.enter, "g"), (EventType.exit, "g")] := by
  rfl

/-! ## C6: sink fan-out is isolated, time-boxed, and non-blocking -/

/-- C6: for any dispatched event, every enabled sink is invoked whatever any
handler does; a handler that exceeds the fixed 5s timeout, or rejects within
it, contributes exactly a logged failure entry at its own slot; the dispatch
itself is total; and the evaluation's returned events and persisted state do
not depend on any sink behaviour (the caller never waits for sinks). -/
theorem adapterDispatch_isolated (t : EventType) (config : AdapterConfig)
    (beh beh2 : String → EventType → SinkBehavior)
    (store : Except String (List GeofenceRow)) (now : ℕ)
    (cache : Option GeofenceCache) (db : List UserGeofenceState) (input : PositionInput) :
    ((dispatchEvent t config beh).map Prod.fst
        = (config.adapters.filter (fun a => a.enabled)).map (fun a => a.name))
    ∧ (∀ a, a ∈ config.adapters → a.enabled = true →
        (beh a.name t).durationMs ≥ ADAPTER_TIMEOUT_MS →
          (a.name, some ("[AdapterDispatcher] " ++ a.name ++ " adapter failed: Adapter timeout"))
            ∈ dispatchEvent t config beh)
    ∧ (∀ a, a ∈ config.adapters → a.enabled = true →
        ∀ msg, (beh a.name t).rejects = some msg →
          (beh a.name t).durationMs < ADAPTER_TIMEOUT_MS →
            (a.name, some ("[AdapterDispatcher] " ++ a.name ++ " adapter failed: " ++ msg))
              ∈ dispatchEvent t config beh)
    ∧ (performEvaluation config beh store now cache db input).result
        = (performEvaluation config beh2 store now cache db input).result
    ∧ (performEvaluation config beh store now cache db input).userStates
        = (performEvaluation config beh2 store now cache db input).userStates := by
  refine ⟨?_, ?_, ?_, ?_, ?_⟩
  · simp [dispatchEvent]
  · intro a ha hen hd
    refine List.mem_map.mpr ⟨a, ?_, ?_⟩
    · simp [List.mem_filter, ha, hen]
    · simp [racedFailure, hd, String.append_assoc]
  · intro a ha hen msg hrej hd
    refine List.mem_map.mpr ⟨a, ?_, ?_⟩
    · simp [List.mem_filter, ha, hen]
    · simp [racedFailure, hrej, Nat.not_le.mpr hd]
  · simp only [performEvaluation]
    cases hg : getCachedGeofences cache now store <;> rfl
  · simp only [performEvaluation]
    cases hg : getCachedGeofences cache now store <;> rfl

/-- A sink oracle where the "slow" sink takes 10s (over the 5s timeout) and
every other sink settles immediately without failing. -/
def slowAdapterBeh : String → EventType → SinkBehavior :=
  fun n _ => if n = "slow" then ⟨10000, none⟩ else ⟨0, none⟩

/-- C6 witness: under a 10s "slow" sink, the timeout failure is logged for
it while the healthy "logger" sink is still invoked. -/
theorem adapterDispatch_isolated_witness :
    ((dispatchEvent EventType.enter ⟨[⟨"slow", true⟩, ⟨"logger", true⟩]⟩ slowAdapterBeh).map
        Prod.fst = ["slow", "logger"])
    ∧ ("slow", some ("[AdapterDispatcher] " ++ "slow" ++ " adapter failed: Adapter timeout"))
        ∈ dispatchEvent EventType.enter ⟨[⟨"slow", true⟩, ⟨"logger", true⟩]⟩ slowAdapterBeh :=
  ⟨by
    rw [(adapterDispatch_isolated EventType.enter ⟨[⟨"slow", true⟩, ⟨"logger", true⟩]⟩
      slowAdapterBeh slowAdapterBeh (Except.ok []) 0 none []
      ⟨"a", "u", 0, 0, 0, 0, none, none⟩).1]
    rfl,
   (adapterDispatch_isolated EventType.enter ⟨[⟨"slow", true⟩, ⟨"logger", true⟩]⟩
      slowAdapterBeh slowAdapterBeh (Except.ok []) 0 none []
      ⟨"a", "u", 0, 0, 0, 0, none, none⟩).2.1 ⟨"slow", true⟩ (by simp) rfl
      (by simp [slowAdapterBeh, ADAPTER_TIMEOUT_MS])⟩

/-! ## Helper lemmas on the evaluator's primitive operations -/

theorem setInsert_nodup (s : List String) (x : String) (h : s.Nodup) :
    (setInsert s x).Nodup := by
  by_cases hx : x ∈ s
  · simpa [setInsert, hx] using h
  · simp only [setInsert, if_neg hx]
    simp [List.nodup_append, h, hx]

theorem computeCurrent_aux_nodup (gs : List GeofenceRec) (lat lng : ℚ) (acc : List String)
    (h : acc.Nodup) :
    (gs.foldl
      (fun acc g => if isPointInPolygon lat lng g.coordinates then setInsert acc g.id else acc)
      acc).Nodup := by
  induction gs generalizing acc with
  | nil => simpa
  | cons g t ih =>
    simp only [List.foldl_cons]
    by_cases hg : isPointInPolygon lat lng g.coordinates = true
    · rw [if_pos hg]
      exact ih _ (setInsert_nodup _ _ h)
    · rw [if_neg hg]
      exact ih _ h

theorem computeCurrentGeofenceIds_nodup (gs : List GeofenceRec) (lat lng : ℚ) :
    (computeCurrentGeofenceIds gs lat lng).Nodup :=
  computeCurrent_aux_nodup gs lat lng [] List.nodup_nil

theorem foldl_setInsert_eq_append (l acc : List String) (h : (acc ++ l).Nodup) :
    l.foldl setInsert acc = acc ++ l := by
  induction l generalizing acc with
  | nil => simp
  | cons x xs ih =>
    have hx : x ∉ acc := by
      intro hmem
      rw [List.nodup_append] at h
      exact h.2.2 hmem (List.mem_cons_self x xs)
    simp only [List.foldl_cons, setInsert, if_neg hx]
    rw [ih (acc ++ [x]) (by simpa using h)]
    simp

theorem setFromList_eq_self (l : List String) (h : l.Nodup) : setFromList l = l := by
  have hfold := foldl_setInsert_eq_append l [] (by simpa using h)
  simpa [setFromList] using hfold

theorem transitionLoop_eq (t : EventType) (gs : List GeofenceRec)
    (fromIds avoidIds : List String) (ts : ℕ)
    (acc : List EvalEvent × List (EventType × String)) :
    transitionLoop t gs fromIds avoidIds ts acc
      = (acc.1 ++ (fromIds.filter (fun gid => decide (gid ∉ avoidIds))).map
            (fun gid => ⟨t, (gs.find? (fun gf => gf.id == gid)).getD defaultGeofence, ts⟩),
         acc.2 ++ (fromIds.filter (fun gid => decide (gid ∉ avoidIds))).map
            (fun gid => (t, gid))) := by
  induction fromIds generalizing acc with
  | nil => simp [transitionLoop]
  | cons x xs ih =>
    simp only [transitionLoop, List.foldl_cons] at *
    by_cases hx : x ∈ avoidIds
    · rw [if_pos hx]
      rw [ih acc]
      simp [hx]
    · rw [if_neg hx]
      rw [ih]
      simp [hx]

theorem transitionLoop_skips_all (t : EventType) (gs : List GeofenceRec)
    (fromIds avoidIds : List String) (ts : ℕ)
    (acc : List EvalEvent × List (EventType × String))
    (h : ∀ x ∈ fromIds, x ∈ avoidIds) :
    transitionLoop t gs fromIds avoidIds ts acc = acc := by
  rw [transitionLoop_eq]
  have hnil : fromIds.filter (fun gid => decide (gid ∉ avoidIds)) = [] := by
    rw [List.filter_eq_nil_iff]
    intro a ha
    simp [h a ha]
  rw [hnil]
  simp

theorem findUserState_cons (x : UserGeofenceState) (l : List UserGeofenceState)
    (a u : String) :
    findUserState (x :: l) a u
      = if (x.appId == a && x.userId == u) then some x else findUserState l a u := by
  cases hb : (x.appId == a && x.userId == u) <;>
    simp [findUserState, List.find?, hb]

theorem findUserState_update (db : List UserGeofenceState) (a u : String)
    (ids : List String) (lat lng : ℚ) (ts : ℕ) :
    findUserState (updateUserState db a u ids lat lng ts) a u
      = (findUserState db a u).map (fun s =>
          { s with activeGeofenceIds := ids, lastLatitude := lat,
                   lastLongitude := lng, lastReportedAt := ts }) := by
  induction db with
  | nil => rfl
  | cons s rest ih =>
    simp only [updateUserState, List.map_cons]
    by_cases h : (s.appId == a && s.userId == u) = true
    · rw [if_pos h, findUserState_cons, findUserState_cons]
      simp only [h, if_pos]
      simp [h]
    · rw [if_neg h, findUserState_cons, findUserState_cons, if_neg (by simp [h]),
        if_neg (by simp [h])]
      exact ih

theorem findUserState_append_none (db : List UserGeofenceState) (fresh : UserGeofenceState)
    (a u : String) (h : findUserState db a u = none) :
    findUserState (db ++ [fresh]) a u
      = if (fresh.appId == a && fresh.userId == u) then some fresh else none := by
  induction db with
  | nil => simp [findUserState_cons, findUserState]
  | cons s rest ih =>
    rw [findUserState_cons] at h
    rw [List.cons_append, findUserState_cons]
    by_cases hs : (s.appId == a && s.userId == u) = true
    · rw [if_pos hs] at h
      exact absurd h (by simp)
    · rw [if_neg hs] at h
      rw [if_neg hs]
      exact ih h

theorem findUserState_ensure (db : List UserGeofenceState) (input : PositionInput) :
    ∃ s, findUserState (ensureUserState db input) input.appId input.userId = some s
      ∧ s.activeGeofenceIds = prevActiveOf db input := by
  cases h : findUserState db input.appId input.userId with
  | some s =>
    refine ⟨s, ?_, ?_⟩
    · rw [ensureUserState, h]
      exact h
    · rw [prevActiveOf, h]
  | none =>
    refine ⟨⟨input.appId, input.userId, [], input.latitude, input.longitude, input.timestamp⟩,
      ?_, ?_⟩
    · rw [ensureUserState, h, findUserState_append_none _ _ _ _ h]
      simp
    · rw [prevActiveOf, h]

theorem getCachedGeofences_not_fresh (cache : Option GeofenceCache) (now : ℕ)
    (store : Except String (List GeofenceRow)) (h : cacheIsFresh cache now = false) :
    getCachedGeofences cache now store = fetchAndPopulate now store := by
  cases cache with
  | none => rfl
  | some c =>
    simp only [cacheIsFresh, decide_eq_false_iff_not] at h
    simp [getCachedGeofences, h]

theorem getCachedGeofences_ok_fresh {cache : Option GeofenceCache} {now : ℕ}
    {store : Except String (List GeofenceRow)} {gs : List GeofenceRec}
    {c2 : Option GeofenceCache} {f : Bool}
    (hg : getCachedGeofences cache now store = .ok (gs, c2, f)) :
    ∃ c, c2 = some c ∧ c.data = gs ∧ now - c.timestamp < CACHE_TTL_MS := by
  have httl : (0 : ℕ) < CACHE_TTL_MS := by norm_num [CACHE_TTL_MS]
  cases cache with
  | none =>
    cases store with
    | error e => simp [getCachedGeofences, fetchAndPopulate] at hg
    | ok rows =>
      simp only [getCachedGeofences, fetchAndPopulate, Except.ok.injEq, Prod.mk.injEq] at hg
      exact ⟨⟨fetchEnabledGeofences rows, now⟩, hg.2.1.symm, by rw [← hg.1], by simpa⟩
  | some c =>
    by_cases hf : now - c.timestamp < CACHE_TTL_MS
    · simp only [getCachedGeofences, if_pos hf, Except.ok.injEq, Prod.mk.injEq] at hg
      exact ⟨c, hg.2.1.symm, by rw [← hg.1], hf⟩
    · cases store with
      | error e => simp [getCachedGeofences, fetchAndPopulate, if_neg hf] at hg
      | ok rows =>
        simp only [getCachedGeofences, if_neg hf, fetchAndPopulate, Except.ok.injEq,
          Prod.mk.injEq] at hg
        exact ⟨⟨fetchEnabledGeofences rows, now⟩, hg.2.1.symm, by rw [← hg.1], by simpa⟩

theorem getCachedGeofences_again {cache : Option GeofenceCache} {now : ℕ}
    {store : Except String (List GeofenceRow)} {gs : List GeofenceRec}
    {c2 : Option GeofenceCache} {f : Bool}
    (hg : getCachedGeofences cache now store = .ok (gs, c2, f)) :
    getCachedGeofences c2 now store = .ok (gs, c2, false) := by
  obtain ⟨c, rfl, hdata, hfresh⟩ := getCachedGeofences_ok_fresh hg
  simp [getCachedGeofences, hfresh, hdata]

theorem performEvaluation_error_case {config : AdapterConfig}
    {beh : String → EventType → SinkBehavior} {store : Except String (List GeofenceRow)}
    {now : ℕ} {cache : Option GeofenceCache} {db : List UserGeofenceState}
    {input : PositionInput} {e : String}
    (he : getCachedGeofences cache now store = .error e) :
    performEvaluation config beh store now cache db input
      = ⟨.error e, db, cache, false, [], []⟩ := by
  simp only [performEvaluation, he]

theorem performEvaluation_ok_case {config : AdapterConfig}
    {beh : String → EventType → SinkBehavior} {store : Except String (List GeofenceRow)}
    {now : ℕ} {cache : Option GeofenceCache} {db : List UserGeofenceState}
    {input : PositionInput} {gs : List GeofenceRec} {c2 : Option GeofenceCache} {f : Bool}
    (hg : getCachedGeofences cache now store = .ok (gs, c2, f)) :
    performEvaluation config beh store now cache db input
      = ⟨.ok (transitionLoop .exit gs (setFromList (prevActiveOf db input))
              (computeCurrentGeofenceIds gs input.latitude input.longitude) input.timestamp
              (transitionLoop .enter gs
                (computeCurrentGeofenceIds gs input.latitude input.longitude)
                (setFromList (prevActiveOf db input)) input.timestamp ([], []))).1,
          updateUserState (ensureUserState db input) input.appId input.userId
            (computeCurrentGeofenceIds gs input.latitude input.longitude)
            input.latitude input.longitude input.timestamp,
          c2, f,
          (transitionLoop .exit gs (setFromList (prevActiveOf db input))
              (computeCurrentGeofenceIds gs input.latitude input.longitude) input.timestamp
              (transitionLoop .enter gs
                (computeCurrentGeofenceIds gs input.latitude input.longitude)
                (setFromList (prevActiveOf db input)) input.timestamp ([], []))).2,
          ((transitionLoop .exit gs (setFromList (prevActiveOf db input))
              (computeCurrentGeofenceIds gs input.latitude input.longitude) input.timestamp
              (transitionLoop .enter gs
                (computeCurrentGeofenceIds gs input.latitude input.longitude)
                (setFromList (prevActiveOf db input)) input.timestamp ([], []))).2.map
            (fun d => dispatchEvent d.1 config beh)).flatten⟩ := by
  simp only [performEvaluation, hg]

/-! ## C4: idempotence of re-evaluating an unchanged position -/

theorem performEvaluation_twice {config : AdapterConfig}
    {beh : String → EventType → SinkBehavior} {store : Except String (List GeofenceRow)}
    {now : ℕ} {cache : Option GeofenceCache} {db : List UserGeofenceState}
    {input : PositionInput} {gs : List GeofenceRec} {c2 : Option GeofenceCache} {f : Bool}
    (hg : getCachedGeofences cache now store = .ok (gs, c2, f)) :
    (performEvaluation config beh store now c2
        (performEvaluation config beh store now cache db input).userStates input).result
      = .ok []
    ∧ (findUserState (performEvaluation config beh store now c2
          (performEvaluation config beh store now cache db input).userStates input).userStates
          input.appId input.userId).map (fun s => s.activeGeofenceIds)
      = (findUserState (performEvaluation config beh store now cache db input).userStates
          input.appId input.userId).map (fun s => s.activeGeofenceIds) := by
  have hg2 : getCachedGeofences c2 now store = .ok (gs, c2, false) :=
    getCachedGeofences_again hg
  obtain ⟨s, hsfind, hsactive⟩ := findUserState_ensure db input
  rw [performEvaluation_ok_case hg, performEvaluation_ok_case hg2]
  dsimp only
  have hfind1 : findUserState
      (updateUserState (ensureUserState db input) input.appId input.userId
        (computeCurrentGeofenceIds gs input.latitude input.longitude)
        input.latitude input.longitude input.timestamp)
      input.appId input.userId
      = some { s with
          activeGeofenceIds := computeCurrentGeofenceIds gs input.latitude input.longitude,
          lastLatitude := input.latitude, lastLongitude := input.longitude,
          lastReportedAt := input.timestamp } := by
    rw [findUserState_update, hsfind]
    rfl
  have hprev2 : prevActiveOf
      (updateUserState (ensureUserState db input) input.appId input.userId
        (computeCurrentGeofenceIds gs input.latitude input.longitude)
        input.latitude input.longitude input.timestamp) input
      = computeCurrentGeofenceIds gs input.latitude input.longitude := by
    rw [prevActiveOf, hfind1]
  have hsetsame : setFromList (prevActiveOf
      (updateUserState (ensureUserState db input) input.appId input.userId
        (computeCurrentGeofenceIds gs input.latitude input.longitude)
        input.latitude input.longitude input.timestamp) input)
      = computeCurrentGeofenceIds gs input.latitude input.longitude := by
    rw [hprev2]
    exact setFromList_eq_self _ (computeCurrentGeofenceIds_nodup gs _ _)
  rw [hsetsame]
  rw [transitionLoop_skips_all _ _ _ _ _ _ (fun x hx => hx),
    transitionLoop_skips_all _ _ _ _ _ _ (fun x hx => hx)]
  refine ⟨rfl, ?_⟩
  have hensure2 : ensureUserState
      (updateUserState (ensureUserState db input) input.appId input.userId
        (computeCurrentGeofenceIds gs input.latitude input.longitude)
        input.latitude input.longitude input.timestamp) input
      = updateUserState (ensureUserState db input) input.appId input.userId
          (computeCurrentGeofenceIds gs input.latitude input.longitude)
          input.latitude input.longitude input.timestamp := by
    rw [ensureUserState, hfind1]
  rw [hensure2, findUserState_update, hfind1]
  rfl

/-- C4: after one successful `evaluatePosition` completes, a second call
with the same position, against the same (still cached) region list,
returns an empty event list and leaves the persisted `activeGeofenceIds`
equal to the value the first call persisted. -/
theorem evaluatePosition_idempotent (config : AdapterConfig)
    (beh : String → EventType → SinkBehavior) (store : Except String (List GeofenceRow))
    (w : EvaluatorWorld) (input : PositionInput) (pending pending2 : List EvalEvent)
    (hl : lockKeyOf input ∉ w.locks)
    (hok : (evaluatePosition config beh store w input pending).result.isOk = true) :
    (evaluatePosition config beh store
        (evaluatePosition config beh store w input pending).world input pending2).result
      = .ok []
    ∧ (findUserState (evaluatePosition config beh store
          (evaluatePosition config beh store w input pending).world input
          pending2).world.userStates
          input.appId input.userId).map (fun s => s.activeGeofenceIds)
      = (findUserState (evaluatePosition config beh store w input pending).world.userStates
          input.appId input.userId).map (fun s => s.activeGeofenceIds) := by
  have herase : (lockKeyOf input :: w.locks).erase (lockKeyOf input) = w.locks :=
    List.erase_cons_head _ _
  have hl' : (lockKeyOf input ∈ w.locks) = False := eq_false hl
  simp only [evaluatePosition, herase, hl', if_false] at hok ⊢
  cases hgc : getCachedGeofences w.cache w.now store with
  | error e =>
    rw [performEvaluation_error_case hgc] at hok
    simp [Except.isOk, Except.toBool] at hok
  | ok v =>
    obtain ⟨gs, c2, f⟩ := v
    have hPcache : (performEvaluation config beh store w.now w.cache w.userStates input).cache
        = c2 := by
      rw [performEvaluation_ok_case hgc]
    rw [hPcache]
    exact performEvaluation_twice hgc

/-- C4 witness: the trivial world (empty cache, empty store, no state, no
locks) satisfies the hypotheses, and the second evaluation returns no
events with unchanged persisted state. -/
theorem evaluatePosition_idempotent_witness :
    (evaluatePosition ⟨[]⟩ (fun _ _ => ⟨0, none⟩) (Except.ok [])
        (evaluatePosition ⟨[]⟩ (fun _ _ => ⟨0, none⟩) (Except.ok [])
          ⟨none, [], [], 0⟩ ⟨"app1", "u1", 0, 0, 0, 0, none, none⟩ []).world
        ⟨"app1", "u1", 0, 0, 0, 0, none, none⟩ []).result = .ok []
    ∧ (findUserState (evaluatePosition ⟨[]⟩ (fun _ _ => ⟨0, none⟩) (Except.ok [])
          (evaluatePosition ⟨[]⟩ (fun _ _ => ⟨0, none⟩) (Except.ok [])
            ⟨none, [], [], 0⟩ ⟨"app1", "u1", 0, 0, 0, 0, none, none⟩ []).world
          ⟨"app1", "u1", 0, 0, 0, 0, none, none⟩ []).world.userStates
        "app1" "u1").map (fun s => s.activeGeofenceIds)
      = (findUserState (evaluatePosition ⟨[]⟩ (fun _ _ => ⟨0, none⟩) (Except.ok [])
            ⟨none, [], [], 0⟩ ⟨"app1", "u1", 0, 0, 0, 0, none, none⟩ []).world.userStates
          "app1" "u1").map (fun s => s.activeGeofenceIds) :=
  evaluatePosition_idempotent ⟨[]⟩ (fun _ _ => ⟨0, none⟩) (Except.ok [])
    ⟨none, [], [], 0⟩ ⟨"app1", "u1", 0, 0, 0, 0, none, none⟩ [] []
    (by simp) (by rfl)

/-! ## C3: a region-store fetch failure aborts cleanly -/

/-- C3: when the cache is not fresh (so the store must be queried) and the
store fails, `evaluatePosition` surfaces the error to the caller, writes no
user state (no creation, no update), leaves the cache untouched, dispatches
nothing, and the per-key lock entry is removed again. -/
theorem evaluatePosition_fetch_failure (config : AdapterConfig)
    (beh : String → EventType → SinkBehavior) (w : EvaluatorWorld)
    (input : PositionInput) (pending : List EvalEvent) (e : String)
    (hl : lockKeyOf input ∉ w.locks)
    (hmiss : cacheIsFresh w.cache w.now = false) :
    (evaluatePosition config beh (Except.error e) w input pending).result = .error e
    ∧ (evaluatePosition config beh (Except.error e) w input pending).world.userStates
        = w.userStates
    ∧ (evaluatePosition config beh (Except.error e) w input pending).world.cache = w.cache
    ∧ lockKeyOf input ∉ (evaluatePosition config beh (Except.error e) w input pending).world.locks
    ∧ (evaluatePosition config beh (Except.error e) w input pending).dispatched = [] := by
  have herase : (lockKeyOf input :: w.locks).erase (lockKeyOf input) = w.locks :=
    List.erase_cons_head _ _
  have hl' : (lockKeyOf input ∈ w.locks) = False := eq_false hl
  have hge : getCachedGeofences w.cache w.now (Except.error e) = .error e := by
    rw [getCachedGeofences_not_fresh _ _ _ hmiss]
    rfl
  simp only [evaluatePosition, herase, hl', if_false]
  simp only [performEvaluation_error_case hge]
  simp

/-- C3 witness: empty cache, failing store, no lock held. -/
theorem evaluatePosition_fetch_failure_witness :
    (evaluatePosition ⟨[]⟩ (fun _ _ => ⟨0, none⟩) (Except.error "db down")
        ⟨none, [], [], 0⟩ ⟨"app1", "u1", 0, 0, 0, 0, none, none⟩ []).result
      = .error "db down"
    ∧ (evaluatePosition ⟨[]⟩ (fun _ _ => ⟨0, none⟩) (Except.error "db down")
        ⟨none, [], [], 0⟩ ⟨"app1", "u1", 0, 0, 0, 0, none, none⟩ []).world.userStates = []
    ∧ (evaluatePosition ⟨[]⟩ (fun _ _ => ⟨0, none⟩) (Except.error "db down")
        ⟨none, [], [], 0⟩ ⟨"app1", "u1", 0, 0, 0, 0, none, none⟩ []).world.cache = none
    ∧ lockKeyOf ⟨"app1", "u1", 0, 0, 0, 0, none, none⟩
        ∉ (evaluatePosition ⟨[]⟩ (fun _ _ => ⟨0, none⟩) (Except.error "db down")
            ⟨none, [], [], 0⟩ ⟨"app1", "u1", 0, 0, 0, 0, none, none⟩ []).world.locks
    ∧ (evaluatePosition ⟨[]⟩ (fun _ _ => ⟨0, none⟩) (Except.error "db down")
        ⟨none, [], [], 0⟩ ⟨"app1", "u1", 0, 0, 0, 0, none, none⟩ []).dispatched = [] :=
  evaluatePosition_fetch_failure ⟨[]⟩ (fun _ _ => ⟨0, none⟩) ⟨none, [], [], 0⟩
    ⟨"app1", "u1", 0, 0, 0, 0, none, none⟩ [] "db down" (by simp) (by rfl)

/-! ## C2: order and content of the emitted transition events -/

theorem setInsert_mem (s : List String) (x y : String) :
    y ∈ setInsert s x ↔ y ∈ s ∨ y = x := by
  by_cases hx : x ∈ s
  · simp only [setInsert, if_pos hx]
    constructor
    · exact Or.inl
    · rintro (h | rfl)
      · exact h
      · exact hx
  · simp [setInsert, if_neg hx]

theorem computeCurrent_aux_mem (gs : List GeofenceRec) (lat lng : ℚ) (acc : List String)
    (gid : String)
    (h : gid ∈ gs.foldl
      (fun acc g => if isPointInPolygon lat lng g.coordinates then setInsert acc g.id else acc)
      acc) :
    gid ∈ acc ∨ ∃ g ∈ gs, g.id = gid := by
  induction gs generalizing acc with
  | nil => exact Or.inl (by simpa using h)
  | cons g t ih =>
    simp only [List.foldl_cons] at h
    by_cases hin : isPointInPolygon lat lng g.coordinates = true
    · rw [if_pos hin] at h
      rcases ih _ h with hacc | ⟨g2, hg2, hid⟩
      · rcases (setInsert_mem acc g.id gid).1 hacc with hmem | rfl
        · exact Or.inl hmem
        · exact Or.inr ⟨g, List.mem_cons_self g t, rfl⟩
      · exact Or.inr ⟨g2, List.mem_cons_of_mem _ hg2, hid⟩
    · rw [if_neg hin] at h
      rcases ih _ h with hacc | ⟨g2, hg2, hid⟩
      · exact Or.inl hacc
      · exact Or.inr ⟨g2, List.mem_cons_of_mem _ hg2, hid⟩

theorem computeCurrent_mem {gs : List GeofenceRec} {lat lng : ℚ} {gid : String}
    (h : gid ∈ computeCurrentGeofenceIds gs lat lng) : ∃ g ∈ gs, g.id = gid := by
  rcases computeCurrent_aux_mem gs lat lng [] gid h with hacc | hex
  · simp at hacc
  · exact hex

theorem find_geofence_id {gs : List GeofenceRec} {gid : String}
    (h : ∃ g ∈ gs, g.id = gid) :
    ((gs.find? (fun gf => gf.id == gid)).getD defaultGeofence).id = gid := by
  obtain ⟨g, hg, hid⟩ := h
  have hisSome : (gs.find? (fun gf => gf.id == gid)).isSome := by
    rw [List.find?_isSome]
    exact ⟨g, hg, by simp [hid]⟩
  obtain ⟨g2, hg2⟩ := Option.isSome_iff_exists.mp hisSome
  have hp := List.find?_some hg2
  rw [hg2]
  simpa using hp

/-- C2 (amended): a successful evaluation returns one `enter` event for each
id in `currentActive \ previousActive` (in region order) followed by one
`exit` event for each id in `previousActive \ currentActive`; every `enter`
precedes every `exit`. Stated for previously-active ids that still resolve
in the region list (otherwise the source's `geofences.find(...)!` would
fault). -/
theorem performEvaluation_enters_then_exits {config : AdapterConfig}
    {beh : String → EventType → SinkBehavior} {store : Except String (List GeofenceRow)}
    {now : ℕ} {cache : Option GeofenceCache} {db : List UserGeofenceState}
    {input : PositionInput} {gs : List GeofenceRec} {c2 : Option GeofenceCache} {f : Bool}
    (hg : getCachedGeofences cache now store = .ok (gs, c2, f))
    (hprev : ∀ gid ∈ setFromList (prevActiveOf db input), ∃ g ∈ gs, g.id = gid)
    {evs : List EvalEvent}
    (hres : (performEvaluation config beh store now cache db input).result = .ok evs) :
    ((evs.filter (fun ev => ev.type = EventType.enter)).map (fun ev => ev.geofence.id)
        = (computeCurrentGeofenceIds gs input.latitude input.longitude).filter
            (fun gid => gid ∉ setFromList (prevActiveOf db input)))
    ∧ ((evs.filter (fun ev => ev.type = EventType.exit)).map (fun ev => ev.geofence.id)
        = (setFromList (prevActiveOf db input)).filter
            (fun gid => gid ∉ computeCurrentGeofenceIds gs input.latitude input.longitude))
    ∧ evs.Pairwise (fun a b => a.type = EventType.enter ∨ b.type = EventType.exit) := by
  rw [performEvaluation_ok_case hg] at hres
  dsimp only at hres
  rw [transitionLoop_eq, transitionLoop_eq] at hres
  dsimp only at hres
  simp only [List.nil_append, Except.ok.injEq] at hres
  subst hres
  constructor
  · rw [List.filter_append]
    have hE : (((computeCurrentGeofenceIds gs input.latitude input.longitude).filter
        (fun gid => decide (gid ∉ setFromList (prevActiveOf db input)))).map
          (fun gid => (⟨EventType.enter,
            (gs.find? (fun gf => gf.id == gid)).getD defaultGeofence,
            input.timestamp⟩ : EvalEvent))).filter (fun ev => ev.type = EventType.enter)
        = ((computeCurrentGeofenceIds gs input.latitude input.longitude).filter
            (fun gid => decide (gid ∉ setFromList (prevActiveOf db input)))).map
          (fun gid => (⟨EventType.enter,
            (gs.find? (fun gf => gf.id == gid)).getD defaultGeofence,
            input.timestamp⟩ : EvalEvent)) := by
      rw [List.filter_eq_self]
      intro a ha
      rcases List.mem_map.mp ha with ⟨gid, _, rfl⟩
      simp
    have hX : (((setFromList (prevActiveOf db input)).filter
        (fun gid => decide (gid ∉ computeCurrentGeofenceIds gs input.latitude input.longitude))).map
          (fun gid => (⟨EventType.exit,
            (gs.find? (fun gf => gf.id == gid)).getD defaultGeofence,
            input.timestamp⟩ : EvalEvent))).filter (fun ev => ev.type = EventType.enter)
        = [] := by
      rw [List.filter_eq_nil_iff]
      intro a ha
      rcases List.mem_map.mp ha with ⟨gid, _, rfl⟩
      simp
    rw [hE, hX, List.append_nil, List.map_map]
    refine (List.map_congr_left ?_).trans (List.map_id _)
    intro gid hgid
    have hmem : gid ∈ computeCurrentGeofenceIds gs input.latitude input.longitude :=
      (List.mem_filter.mp hgid).1
    exact find_geofence_id (computeCurrent_mem hmem)
  constructor
  · rw [List.filter_append]
    have hE : (((computeCurrentGeofenceIds gs input.latitude input.longitude).filter
        (fun gid => decide (gid ∉ setFromList (prevActiveOf db input)))).map
          (fun gid => (⟨EventType.enter,
            (gs.find? (fun gf => gf.id == gid)).getD defaultGeofence,
            input.timestamp⟩ : EvalEvent))).filter (fun ev => ev.type = EventType.exit)
        = [] := by
      rw [List.filter_eq_nil_iff]
      intro a ha
      rcases List.mem_map.mp ha with ⟨gid, _, rfl⟩
      simp
    have hX : (((setFromList (prevActiveOf db input)).filter
        (fun gid => decide (gid ∉ computeCurrentGeofenceIds gs input.latitude input.longitude))).map
          (fun gid => (⟨EventType.exit,
            (gs.find? (fun gf => gf.id == gid)).getD defaultGeofence,
            input.timestamp⟩ : EvalEvent))).filter (fun ev => ev.type = EventType.exit)
        = ((setFromList (prevActiveOf db input)).filter
            (fun gid => decide (gid ∉ computeCurrentGeofenceIds gs input.latitude input.longitude))).map
          (fun gid => (⟨EventType.exit,
            (gs.find? (fun gf => gf.id == gid)).getD defaultGeofence,
            input.timestamp⟩ : EvalEvent)) := by
      rw [List.filter_eq_self]
      intro a ha
      rcases List.mem_map.mp ha with ⟨gid, _, rfl⟩
      simp
    rw [hE, hX, List.nil_append, List.map_map]
    refine (List.map_congr_left ?_).trans (List.map_id _)
    intro gid hgid
    have hmem : gid ∈ setFromList (prevActiveOf db input) :=
      (List.mem_filter.mp hgid).1
    exact find_geofence_id (hprev gid hmem)
  · rw [List.pairwise_append]
    refine ⟨?_, ?_, ?_⟩
    · apply List.pairwise_of_forall_mem_list
      intro a ha b hb
      rcases List.mem_map.mp ha with ⟨gid, _, rfl⟩
      exact Or.inl rfl
    · apply List.pairwise_of_forall_mem_list
      intro a ha b hb
      rcases List.mem_map.mp hb with ⟨gid, _, rfl⟩
      exact Or.inr rfl
    · intro a ha b hb
      rcases List.mem_map.mp ha with ⟨gid, _, rfl⟩
      exact Or.inl rfl

/-- Region the user was previously inside (far from the new position). -/
def regionA : GeofenceRec := ⟨"A", "Region A", octagonAt 100 100⟩

/-- Region containing the newly reported position. -/
def regionB : GeofenceRec := ⟨"B", "Region B", octagonAt 0 0⟩

/-- A user previously active in region A reports a position inside region B
only: the evaluation must emit one enter (B) and one exit (A). -/
def c2Outcome : EvalOutcome :=
  performEvaluation ⟨[]⟩ (fun _ _ => ⟨0, none⟩) (Except.ok []) 0
    (some ⟨[regionA, regionB], 0⟩) [⟨"app1", "u1", ["A"], 0, 0, 0⟩]
    ⟨"app1", "u1", 1, 1, 0, 7, none, none⟩

theorem c2_cache_hit :
    getCachedGeofences (some ⟨[regionA, regionB], 0⟩) 0 (Except.ok [])
      = .ok ([regionA, regionB], some ⟨[regionA, regionB], 0⟩, false) := by
  simp [getCachedGeofences, CACHE_TTL_MS]

theorem c2_current_ids : computeCurrentGeofenceIds [regionA, regionB] 1 1 = ["B"] := by
  have hA : isPointInPolygon 1 1 (octagonAt 100 100) = false := by
    norm_num [isPointInPolygon, isPointInPolygonRun, rayCastLoop, octagonAt, edgeCross,
      List.range_succ, List.getD]
  have hB : isPointInPolygon 1 1 (octagonAt 0 0) = true := by
    norm_num [isPointInPolygon, isPointInPolygonRun, rayCastLoop, octagonAt, edgeCross,
      List.range_succ, List.getD]
  simp [computeCurrentGeofenceIds, regionA, regionB, hA, hB, setInsert]

theorem c2Result_eval :
    c2Outcome.result
      = .ok [⟨EventType.enter, regionB, 7⟩, ⟨EventType.exit, regionA, 7⟩] := by
  rw [c2Outcome, performEvaluation_ok_case c2_cache_hit]
  dsimp only
  rw [c2_current_ids]
  simp [transitionLoop_eq, prevActiveOf, findUserState, List.find?, setFromList, setInsert,
    regionA, regionB]

/-- C2 counterexample: with previousActive = [A] and currentActive = [B] the
returned sequence is [enter B, exit A] — an enter precedes an exit — so
"every exit precedes every enter" fails on the code. -/
theorem performEvaluation_exits_first_refuted :
    c2Outcome.result
      = .ok [⟨EventType.enter, regionB, 7⟩, ⟨EventType.exit, regionA, 7⟩]
    ∧ ¬ ([⟨EventType.enter, regionB, 7⟩, ⟨EventType.exit, regionA, 7⟩] : List EvalEvent).Pairwise
        (fun a b => a.type = EventType.exit ∨ b.type = EventType.enter) := by
  refine ⟨c2Result_eval, ?_⟩
  intro h
  have h1 := (List.pairwise_cons.mp h).1 _ (List.mem_cons_self _ _)
  rcases h1 with h1 | h1 <;> simp at h1

/-- C2 witness (amended claim at the concrete counterexample world): the
enter part is exactly currentActive \ previousActive, the exit part exactly
previousActive \ currentActive, and enters precede exits. -/
theorem performEvaluation_enters_then_exits_witness :
    ((([⟨EventType.enter, regionB, 7⟩, ⟨EventType.exit, regionA, 7⟩] : List EvalEvent).filter
        (fun ev => ev.type = EventType.enter)).map (fun ev => ev.geofence.id)
      = (computeCurrentGeofenceIds [regionA, regionB] 1 1).filter
          (fun gid => gid ∉ setFromList (prevActiveOf [⟨"app1", "u1", ["A"], 0, 0, 0⟩]
            ⟨"app1", "u1", 1, 1, 0, 7, none, none⟩)))
    ∧ ((([⟨EventType.enter, regionB, 7⟩, ⟨EventType.exit, regionA, 7⟩] : List EvalEvent).filter
        (fun ev => ev.type = EventType.exit)).map (fun ev => ev.geofence.id)
      = (setFromList (prevActiveOf [⟨"app1", "u1", ["A"], 0, 0, 0⟩]
            ⟨"app1", "u1", 1, 1, 0, 7, none, none⟩)).filter
          (fun gid => gid ∉ computeCurrentGeofenceIds [regionA, regionB] 1 1))
    ∧ ([⟨EventType.enter, regionB, 7⟩, ⟨EventType.exit, regionA, 7⟩] : List EvalEvent).Pairwise
        (fun a b => a.type = EventType.enter ∨ b.type = EventType.exit) :=
  performEvaluation_enters_then_exits c2_cache_hit
    (by
      intro gid hgid
      simp [prevActiveOf, findUserState, List.find?, setFromList, setInsert] at hgid
      subst hgid
      exact ⟨regionA, by simp, rfl⟩)
    c2Result_eval

/-! ## C10: the region cache is one global entry, not keyed by namespace -/

/-- C10: (a) two evaluations from the same world that differ only in
`appId`/`userId` evaluate membership against the identical region list
(`getCachedGeofences` takes no namespace): each persists, for its own key,
the same key-independent membership set `computeCurrentGeofenceIds gs`.
Stated for previously-active ids (of either key) that still resolve in the
fetched list — on any other input the source's `geofences.find(...)!`
throws before the update (see `transitionLoop`), so nothing is persisted
there; (b) the store fetch filters on the `enabled` flag only, with no
namespace condition; (c) `invalidateGeofenceCache` drops the single global
entry, so the next read for any caller goes to the store. -/
theorem geofenceCache_global_not_namespaced :
    (∀ (config : AdapterConfig) (beh : String → EventType → SinkBehavior)
      (store : Except String (List GeofenceRow)) (now : ℕ) (cache : Option GeofenceCache)
      (db : List UserGeofenceState) (a1 u1 a2 u2 : String) (lat lng acc : ℚ) (ts : ℕ)
      (sp hd : Option ℚ) (gs : List GeofenceRec) (c2 : Option GeofenceCache) (f : Bool),
      getCachedGeofences cache now store = .ok (gs, c2, f) →
      (∀ gid ∈ setFromList (prevActiveOf db ⟨a1, u1, lat, lng, acc, ts, sp, hd⟩),
        ∃ g ∈ gs, g.id = gid) →
      (∀ gid ∈ setFromList (prevActiveOf db ⟨a2, u2, lat, lng, acc, ts, sp, hd⟩),
        ∃ g ∈ gs, g.id = gid) →
      (findUserState (performEvaluation config beh store now cache db
          ⟨a1, u1, lat, lng, acc, ts, sp, hd⟩).userStates a1 u1).map
        (fun s => s.activeGeofenceIds)
        = some (computeCurrentGeofenceIds gs lat lng)
      ∧ (findUserState (performEvaluation config beh store now cache db
          ⟨a2, u2, lat, lng, acc, ts, sp, hd⟩).userStates a2 u2).map
        (fun s => s.activeGeofenceIds)
        = some (computeCurrentGeofenceIds gs lat lng))
    ∧ (∀ (rows : List GeofenceRow) (g : GeofenceRec),
        g ∈ fetchEnabledGeofences rows
          ↔ ∃ row ∈ rows, row.enabled = true ∧ GeofenceRow.toRec row = g)
    ∧ (∀ (c : Option GeofenceCache) (now : ℕ) (store : Except String (List GeofenceRow)),
        getCachedGeofences (invalidateGeofenceCache c) now store
          = fetchAndPopulate now store) := by
  refine ⟨?_, ?_, ?_⟩
  · intro config beh store now cache db a1 u1 a2 u2 lat lng acc ts sp hd gs c2 f hg _ _
    obtain ⟨s1, hs1, -⟩ := findUserState_ensure db ⟨a1, u1, lat, lng, acc, ts, sp, hd⟩
    obtain ⟨s2, hs2, -⟩ := findUserState_ensure db ⟨a2, u2, lat, lng, acc, ts, sp, hd⟩
    constructor
    · rw [performEvaluation_ok_case hg]
      dsimp only
      rw [findUserState_update, hs1]
      rfl
    · rw [performEvaluation_ok_case hg]
      dsimp only
      rw [findUserState_update, hs2]
      rfl
  · intro rows g
    simp [fetchEnabledGeofences, List.mem_filter, and_assoc]
  · intro c now store
    rfl

/-- C10 witness: two keys in different namespaces, neither previously
active anywhere, evaluated on the same empty store: both persist the same
key-independent (empty) membership set. -/
theorem geofenceCache_global_not_namespaced_witness :
    (findUserState (performEvaluation ⟨[]⟩ (fun _ _ => ⟨0, none⟩) (Except.ok []) 0 none []
        ⟨"app1", "u1", 0, 0, 0, 0, none, none⟩).userStates "app1" "u1").map
      (fun s => s.activeGeofenceIds) = some []
    ∧ (findUserState (performEvaluation ⟨[]⟩ (fun _ _ => ⟨0, none⟩) (Except.ok []) 0 none []
        ⟨"app2", "u2", 0, 0, 0, 0, none, none⟩).userStates "app2" "u2").map
      (fun s => s.activeGeofenceIds) = some [] :=
  geofenceCache_global_not_namespaced.1 ⟨[]⟩ (fun _ _ => ⟨0, none⟩) (Except.ok []) 0 none []
    "app1" "u1" "app2" "u2" 0 0 0 0 none none [] (some ⟨[], 0⟩) true (by rfl)
    (by
      intro gid hgid
      simp [prevActiveOf, findUserState, setFromList] at hgid)
    (by
      intro gid hgid
      simp [prevActiveOf, findUserState, setFromList] at hgid)
